import Mathlib

/-!
# logx: a shallow embedding of `src/logx.go`

The Go package keeps three package-level variables (`logLevel`,
`filePathMode`, the `once`-guarded `globalLogger`) and writes to the process
error stream.  The embedding threads them through an explicit `World`; the
inputs the program reads from its surroundings (the clock, the call stack
seen by `runtime.Caller`, the result of the stream write) are an `Env`.

Text is modelled as `String` (valid Unicode); severities (`slog.Level`, a Go
`int`) as `Int`, no arithmetic on them can overflow in this program.  The
functions of the Go standard library the package calls (`slog.Level.String`,
`time.Format`, `filepath.Base` for the separator `/`, `fmt.Fprintf`, the
dispatch of `log/slog`) are modelled next to the code that calls them.
-/

namespace Logx

/-! ## Constants (logx.go, lines 14-24) -/

def colorReset : String := "\x1b[0m"
def colorRed : String := "\x1b[31m"
def colorWhite : String := "\x1b[97m"
def colorYellow : String := "\x1b[33m"
def colorBlue : String := "\x1b[34m"
def bold : String := "\x1b[1m"

/-- The standard tiers of `log/slog`. -/
def slogLevelDebug : Int := -4
def slogLevelInfo : Int := 0
def slogLevelWarn : Int := 4
def slogLevelError : Int := 8

def lvlPanic : Int := 12
def lvlFatal : Int := 16

/-- The key `log/slog` gives an argument that has no key (`badKey`). -/
def badKey : String := "!BADKEY"

/-! ## Go values and their default text -/

/-- The dynamic values (`any`) that reach the logger: `nil`, booleans,
integers, strings and `[]any` slices. -/
inductive GoValue where
  | nil : GoValue
  | bool (b : Bool) : GoValue
  | int (i : Int) : GoValue
  | str (s : String) : GoValue
  | slice (xs : List GoValue) : GoValue

/-- Space-separated concatenation, the way `fmt` prints the elements of a
slice under `%v`. -/
def joinSpace : List String → String
  | [] => ""
  | [s] => s
  | s :: t :: rest => s ++ " " ++ joinSpace (t :: rest)

mutual
/-- Default text of a value: `fmt.Sprint(v)`, which is also what `%v` prints
for a `slog.Value` holding `v` (through `Value.String`). -/
def sprint : GoValue → String
  | .nil => "<nil>"
  | .bool b => if b then "true" else "false"
  | .int i => toString i
  | .str s => s
  | .slice xs => "[" ++ joinSpace (sprintAll xs) ++ "]"
/-- The default texts of the elements of a slice, in order. -/
def sprintAll : List GoValue → List String
  | [] => []
  | x :: xs => sprint x :: sprintAll xs
end

/-! ## Data model -/

/-- One `slog.Attr`. -/
structure Attr where
  Key : String
  Value : GoValue

/-- A `slog.Record` as `Handle` reads it: `Time` is the number of seconds
since the epoch of the record's wall clock in its own location. -/
structure Record where
  Time : Nat
  Level : Int
  Message : String
  attrs : List Attr

/-- One frame of the call stack as `runtime.Caller` and `runtime.FuncForPC`
report it; `function` is `none` when `FuncForPC` returns `nil`. -/
structure Frame where
  function : Option String
  file : String
  line : Int

inductive FilePathMode where
  | Absent
  | Full
  | Short
  deriving DecidableEq, Repr

/-- The package-level variables (logx.go, lines 164-169) and the error
stream: `stderr` lists the byte strings handed to `os.Stderr`, one per write,
oldest first; `constructed` counts the runs of `initLogger`. -/
structure World where
  logLevel : Int
  globalLogger : Option Nat
  once : Bool
  filePathMode : FilePathMode
  constructed : Nat
  stderr : List String

/-- The values of the package-level variables at program start. -/
def World.initial : World :=
  { logLevel := slogLevelDebug, globalLogger := none, once := false,
    filePathMode := FilePathMode.Short, constructed := 0, stderr := [] }

/-- What one call reads from its surroundings: the clock (`time.Now`), the
call stack seen from inside `Handle` (depth 0 is `Handle` itself) and whether
the write to the error stream fails. -/
structure Env where
  now : Nat
  stack : List Frame
  writeFails : Bool

/-- How a call of an entry point ends: it returns, it unwinds with the value
of a `panic(value)` of the package, it ends the process with `os.Exit`, or it
unwinds with the run-time error of a nil pointer dereference (a
`runtime.Error`, which is no string). -/
inductive Outcome where
  | returned
  | panicked (value : String)
  | exited (status : Int)
  | nilDereference
  deriving DecidableEq, Repr

/-- The verb `%+d` of `fmt`: a decimal integer that always carries its sign. -/
def fmtPlusD (v : Int) : String :=
  if 0 ≤ v then "+" ++ toString v.toNat else toString v

/-- The method `slog.Level.String` of the standard library: the name of the
nearest standard tier at or below the level, then the signed offset from it
when that is not zero. -/
def levelString (l : Int) : String :=
  let str := fun (base : String) (val : Int) =>
    if val = 0 then base else base ++ fmtPlusD val
  if l < slogLevelInfo then str "DEBUG" (l - slogLevelDebug)
  else if l < slogLevelWarn then str "INFO" (l - slogLevelInfo)
  else if l < slogLevelError then str "WARN" (l - slogLevelWarn)
  else str "ERROR" (l - slogLevelError)

def customLevelToString (level : Int) : String :=
  if level = lvlPanic then "PANIC"
  else if level = lvlFatal then "FATAL"
  else levelString level

def colorByLevel (level : Int) : String :=
  if level = slogLevelInfo then colorWhite
  else if level = slogLevelDebug then colorBlue
  else if level = slogLevelWarn then colorYellow
  else colorRed

/-! ## Caller classification (logx.go, lines 50-57) -/

/-- The function `strings.Contains`: `sub` occurs in `s` as a contiguous run. -/
def strContains (s sub : String) : Bool :=
  decide (sub.data <:+: s.data)

def isInternalPackage (name : String) : Bool :=
  strContains name "log/slog" ||
    strContains name "runtime." ||
    strContains name "CustomHandler" ||
    strContains name "slog.New" ||
    strContains name "logx."

/-! ## Library functions used by `Handle` -/

/-- A number in decimal, padded on the left with a zero to two places (the
way `time.Format` writes the fields `15`, `04` and `05`). -/
def twoDigits (n : Nat) : String :=
  (if n < 10 then "0" else "") ++ toString n

/-- The call `t.Format("15:04:05")`: hour, minute and second of the wall
clock, computed from the seconds count as `time.absClock` does. -/
def formatClock (t : Nat) : String :=
  let sec := t % 86400
  let hour := sec / 3600
  let sec := sec - hour * 3600
  let min := sec / 60
  let sec := sec - min * 60
  twoDigits hour ++ ":" ++ twoDigits min ++ ":" ++ twoDigits sec

/-- The function `filepath.Base` on a system whose path separator is `/`:
trailing separators are dropped, then what follows the last separator is
kept; an empty path gives `.`, a path of separators only gives `/`. -/
def filepathBase (path : String) : String :=
  if path = "" then "."
  else
    let stripped := path.data.rdropWhile (fun c => c == '/')
    let last := stripped.rtakeWhile (fun c => c != '/')
    if last = [] then "/" else String.mk last

/-! ## `fmt.Fprintf` called with a format and no operands

`Handle` passes the rendered text to `fmt.Fprintf` as the FORMAT (line 136),
so the bytes written are what `(*pp).doPrintf` of the standard library makes
of that format with an empty operand list.  The functions below follow
`doPrintf` and its helpers for that case; a position `i` in the format is
modelled by the text from `i` to the end. -/

/-- The loop of `parsenum` over the text from `start` to `end`: the number
read so far, whether a digit was read, and the text left; a number above
`1e6` gives up and skips to `end`. -/
def parsenumAux : List Char → Nat → Bool → Nat × Bool × List Char
  | [], num, isnum => (num, isnum, [])
  | c :: cs, num, isnum =>
    if '0' ≤ c ∧ c ≤ '9' then
      if num > 1000000 then (0, false, [])
      else parsenumAux cs (num * 10 + (c.toNat - '0'.toNat)) true
    else (num, isnum, c :: cs)

def parsenum (s : List Char) : Nat × Bool × List Char :=
  parsenumAux s 0 false

/-- The function `parseArgNumber` on text that starts with `[`: whether a
well-formed `[n]` was read, and the text left after the `wid` bytes it
consumed (the index `n` itself is of no use without operands). -/
def parseArgNumber (format : List Char) : Bool × List Char :=
  if (format.map Char.utf8Size).sum < 3 then (false, format.drop 1)
  else
    match format.tail.span (fun c => c != ']') with
    | (inner, ']' :: rest) =>
      let (_, ok, left) := parsenum inner
      if !ok || left ≠ [] then (false, rest) else (true, rest)
    | _ => (false, format.drop 1)

/-- The method `argNumber` with no operands: the new `goodArgNum`, the text
left, and `found`.  Any `[...]` makes the argument number bad, since no index
is below the operand count 0. -/
def argNumber (goodArgNum : Bool) (format : List Char) : Bool × List Char × Bool :=
  match format with
  | '[' :: _ =>
    let (ok, rest) := parseArgNumber format
    (false, rest, ok)
  | _ => (goodArgNum, format, false)

/-- The width part of a verb: `*` finds no operand and writes `%!(BADWIDTH)`,
else a number is read, which after an argument index makes the index bad.
Returns the text written, `goodArgNum`, the format left and `afterIndex`. -/
def doWidth (goodArgNum : Bool) (format : List Char) (afterIndex : Bool) :
    String × Bool × List Char × Bool :=
  match format with
  | '*' :: r => ("%!(BADWIDTH)", goodArgNum, r, false)
  | _ =>
    let (_, widPresent, r) := parsenum format
    ("", goodArgNum && !(afterIndex && widPresent), r, afterIndex)

/-- The precision part of a verb, after the width: nothing unless a `.`
follows; then an optional argument index and `*` (no operand:
`%!(BADPREC)`) or a number. -/
def doPrecision (goodArgNum : Bool) (format : List Char) (afterIndex : Bool) :
    String × Bool × List Char × Bool :=
  match format with
  | '.' :: r =>
    let (good, r, afterIndex) := argNumber (goodArgNum && !afterIndex) r
    match r with
    | '*' :: r => ("%!(BADPREC)", good, r, false)
    | _ =>
      let (_, _, r) := parsenum r
      ("", good, r, afterIndex)
  | _ => ("", goodArgNum, format, afterIndex)

/-- The end of a verb: with no character left `%!(NOVERB)` is written and the
loop ends (`none`); `%` gives a percent sign; any other verb has no operand
and gives `%!v(BADINDEX)` after a bad argument index, else `%!v(MISSING)`. -/
def doVerbChar (goodArgNum : Bool) (format : List Char) : String × Option (List Char) :=
  match format with
  | [] => ("%!(NOVERB)", none)
  | verb :: rest =>
    if verb = '%' then ("%", some rest)
    else if !goodArgNum then ("%!" ++ String.singleton verb ++ "(BADINDEX)", some rest)
    else ("%!" ++ String.singleton verb ++ "(MISSING)", some rest)

/-- One pass of the body of `formatLoop` after a `%` was met: flags, argument
index, width, precision, argument index again and verb.  Returns the text
written and the format left; `none` for the format left means the loop ends
(`break`). -/
def doVerb (format : List Char) : String × Option (List Char) :=
  let i := format.dropWhile
    (fun c => c == '#' || c == '0' || c == '+' || c == '-' || c == ' ')
  let (good, i, afterIndex) := argNumber true i
  let (out1, good, i, afterIndex) := doWidth good i afterIndex
  let (out2, good, i, afterIndex) := doPrecision good i afterIndex
  let (good, i) := if afterIndex then (good, i) else ((argNumber good i).1, (argNumber good i).2.1)
  let (out3, rest) := doVerbChar good i
  (out1 ++ out2 ++ out3, rest)

/-- The loop `formatLoop` of `doPrintf`: text up to the next `%` is copied,
then one verb is processed.  Every pass consumes at least the `%`, so a fuel
of one more than the length of the format is never used up. -/
def doPrintf : Nat → List Char → String
  | 0, _ => ""
  | fuel + 1, format =>
    match format.span (fun c => c != '%') with
    | (lit, []) => String.mk lit
    | (lit, _ :: afterPercent) =>
      match doVerb afterPercent with
      | (out, none) => String.mk lit ++ out
      | (out, some rest) => String.mk lit ++ out ++ doPrintf fuel rest

/-- The bytes `fmt.Fprintf(w, format)` hands to `w` in its one call of
`w.Write`. -/
def Fprintf (format : String) : String :=
  doPrintf (format.length + 1) format.data

/-! ## The handler (logx.go, lines 87-150) -/

/-- The text one attribute adds to `attrs` (the callback of lines 92-99). -/
def attrText (a : Attr) : String :=
  if a.Key = "!BADKEY" then " " ++ sprint a.Value
  else " " ++ a.Key ++ "=" ++ sprint a.Value

/-- The value of `attrs` after lines 90-103: the attributes in the order
`record.Attrs` visits them, and the text ` []` replaced by the empty text. -/
def handleAttrs (record : Record) : String :=
  let attrs := record.attrs.foldl (fun acc a => acc ++ attrText a) ""
  if attrs = " []" then "" else attrs

/-- The loop of lines 107-122 from depth `i` with `n` iterations left:
`runtime.Caller(i)` fails when the stack has no frame at depth `i`. -/
def callerLoop (stack : List Frame) : Nat → Nat → String × Int
  | _, 0 => ("unknown", 0)
  | i, n + 1 =>
    match stack.get? i with
    | none => callerLoop stack (i + 1) n
    | some fr =>
      match fr.function with
      | none => callerLoop stack (i + 1) n
      | some funcName =>
        if !isInternalPackage funcName then (fr.file, fr.line)
        else callerLoop stack (i + 1) n

/-- The values of `file` and `line` after lines 105-122 (`i` runs from 2 to
14). -/
def resolveCaller (stack : List Frame) : String × Int :=
  callerLoop stack 2 13

/-- The value of `file` after lines 124-126. -/
def displayFile (mode : FilePathMode) (file : String) : String :=
  if isInternalPackage file = false ∧ mode = FilePathMode.Short then filepathBase file
  else file

/-- The value of `msg` when line 136 is reached: the rendered line. -/
def handleMsg (mode : FilePathMode) (stack : List Frame) (record : Record) : String :=
  let formattedTime := formatClock record.Time
  let attrs := handleAttrs record
  let file := displayFile mode (resolveCaller stack).1
  let line := (resolveCaller stack).2
  let msg := bold ++ colorWhite ++ formattedTime ++ " [" ++ file ++ ":" ++ toString line
    ++ "][" ++ customLevelToString record.Level ++ "]:" ++ colorByLevel record.Level
    ++ " " ++ record.Message ++ attrs ++ colorReset ++ "\n"
  if mode = FilePathMode.Absent then
    bold ++ colorWhite ++ formattedTime ++ " [" ++ customLevelToString record.Level ++ "]:"
      ++ colorByLevel record.Level ++ " " ++ record.Message ++ attrs ++ colorReset ++ "\n"
  else msg

/-- The method `CustomHandler.Handle`: one write to the error stream; the
result says whether the returned `error` is non-nil. -/
def Handle (w : World) (env : Env) (record : Record) : World × Bool :=
  let msg := handleMsg w.filePathMode env.stack record
  ({ w with stderr := w.stderr ++ [Fprintf msg] }, env.writeFails)

def Enabled (w : World) (level : Int) : Bool :=
  decide (level ≥ w.logLevel)

/-! ## The dispatch of `log/slog` -/

/-- The method `Record.Add` of `log/slog`: a string argument is a key and takes
the next argument as its value, a last lone string and any other value get
the key `!BADKEY`. -/
def argsToAttrs : List GoValue → List Attr
  | [] => []
  | [GoValue.str x] => [{ Key := badKey, Value := GoValue.str x }]
  | GoValue.str x :: v :: rest => { Key := x, Value := v } :: argsToAttrs rest
  | x :: rest => { Key := badKey, Value := x } :: argsToAttrs rest

/-- The record `(*slog.Logger).log` builds: `NewRecord(time.Now(), level, msg,
pc)` followed by `r.Add(args...)`. -/
def newRecord (env : Env) (level : Int) (msg : String) (args : List GoValue) : Record :=
  { Time := env.now, Level := level, Message := msg, attrs := argsToAttrs args }

/-- The method `(*slog.Logger).log` of a logger whose handler is a
`CustomHandler`: nothing when the level is not enabled, else the record is
built and handed to `Handle`, whose error is dropped. -/
def loggerLog (w : World) (env : Env) (level : Int) (msg : String)
    (args : List GoValue) : World :=
  if Enabled w level then (Handle w env (newRecord env level msg args)).1
  else w

/-! ## Package state and entry points (logx.go, lines 152-219) -/

def initLogger (w : World) : World :=
  { w with globalLogger := some w.constructed, constructed := w.constructed + 1 }

/-- The function `getLogger`: `once.Do(initLogger)`, then the value of
`globalLogger`. -/
def getLogger (w : World) : World × Option Nat :=
  let w1 := if w.once then w else { initLogger w with once := true }
  (w1, w1.globalLogger)

/-- A handler of `log/slog` that is no `CustomHandler`, as far as a call of
`Log` shows it: its own gate, and what handling a record does to the package
state and the error stream.  The handler is taken to return. -/
structure OtherHandler where
  Enabled : Int → Bool
  Handle : World → Record → World

/-- The pointer `*slog.Logger` that a `Logger` embeds: nil (as in `Logger{}`),
a logger whose handler is a `CustomHandler` (as the one `initLogger` builds),
or a logger with another handler. -/
inductive SlogLogger where
  | nil
  | custom
  | other (h : OtherHandler)

set_option linter.dupNamespace false in
/-- The type `Logger` (logx.go, lines 59-61); its one field is the embedded
`*slog.Logger`, which Go names `Logger` too. -/
structure Logger where
  Logger : SlogLogger

/-- The method `(*slog.Logger).Log` called through the pointer: a nil pointer
is dereferenced before anything is written (`none`); else the handler's gate
is asked and, when it allows the level, the handler gets the record. -/
def SlogLogger.Log (l : SlogLogger) (w : World) (env : Env) (level : Int) (msg : String)
    (args : List GoValue) : Option World :=
  match l with
  | SlogLogger.nil => none
  | SlogLogger.custom => some (loggerLog w env level msg args)
  | SlogLogger.other h =>
    some (if h.Enabled level then h.Handle w (newRecord env level msg args) else w)

/-- The method `Logger.Panic`; `arg` is its variadic parameter, handed on to
`Log` as ONE argument (line 154 has `arg`, not `arg...`). -/
def Logger.Panic (l : Logx.Logger) (w : World) (env : Env) (msg : String) (arg : List GoValue) :
    World × Outcome :=
  if w.logLevel ≤ lvlPanic then
    match l.Logger.Log w env lvlPanic msg [GoValue.slice arg] with
    | none => (w, Outcome.nilDereference)
    | some w1 => (w1, Outcome.panicked "")
  else (w, Outcome.returned)

/-- The method `Logger.Fatal`. -/
def Logger.Fatal (l : Logx.Logger) (w : World) (env : Env) (msg : String) (arg : List GoValue) :
    World × Outcome :=
  match l.Logger.Log w env lvlFatal msg [GoValue.slice arg] with
  | none => (w, Outcome.nilDereference)
  | some w1 => (w1, Outcome.exited 1)

def Debug (w : World) (env : Env) (msg : String) (args : List GoValue) : World × Outcome :=
  (loggerLog (getLogger w).1 env slogLevelDebug msg [GoValue.slice args], Outcome.returned)

def Info (w : World) (env : Env) (msg : String) (args : List GoValue) : World × Outcome :=
  (loggerLog (getLogger w).1 env slogLevelInfo msg [GoValue.slice args], Outcome.returned)

def Warn (w : World) (env : Env) (msg : String) (args : List GoValue) : World × Outcome :=
  (loggerLog (getLogger w).1 env slogLevelWarn msg [GoValue.slice args], Outcome.returned)

def Error (w : World) (env : Env) (msg : String) (args : List GoValue) : World × Outcome :=
  (loggerLog (getLogger w).1 env slogLevelError msg [GoValue.slice args], Outcome.returned)

/-- The function `Panic`: the receiver `Logger{getLogger()}` wraps the global
logger, which `initLogger` built on a `CustomHandler`. -/
def Panic (w : World) (env : Env) (msg : String) (args : List GoValue) : World × Outcome :=
  Logger.Panic { Logger := SlogLogger.custom } (getLogger w).1 env msg [GoValue.slice args]

/-- The function `Fatal`: the receiver `Logger{getLogger()}` wraps the global
logger, which `initLogger` built on a `CustomHandler`. -/
def Fatal (w : World) (env : Env) (msg : String) (args : List GoValue) : World × Outcome :=
  Logger.Fatal { Logger := SlogLogger.custom } (getLogger w).1 env msg [GoValue.slice args]

def SetLevel (w : World) (level : Int) : World :=
  { w with logLevel := level }

def SetPathMode (w : World) (mode : FilePathMode) : World :=
  { w with filePathMode := mode }

/-! ## Handler scoping (logx.go, lines 63-66 and 144-150) -/

/-- The type `CustomHandler`: its one field is the embedded `Logger`, a
pointer that `&CustomHandler{}` leaves nil (`none`). -/
structure CustomHandler where
  Logger : Option Nat
  deriving DecidableEq

def CustomHandler.WithAttrs (c : CustomHandler) (_ : List Attr) : CustomHandler :=
  c

def CustomHandler.WithGroup (c : CustomHandler) (_ : String) : CustomHandler :=
  c

/-- The method `Handle` with its receiver, which the body never reads. -/
def CustomHandler.Handle (_ : CustomHandler) (w : World) (env : Env) (record : Record) :
    World × Bool :=
  Logx.Handle w env record

/-- The method `Enabled` with its receiver, which the body never reads. -/
def CustomHandler.Enabled (_ : CustomHandler) (w : World) (level : Int) : Bool :=
  Logx.Enabled w level

/-! ## Sequences of calls -/

/-- The attribute segment as the specification words it: one token
` key=value` per attribute, in insertion order. -/
def kvSegment : List Attr → String
  | [] => ""
  | a :: rest => " " ++ a.Key ++ "=" ++ sprint a.Value ++ kvSegment rest

/-- The layout up to the message, as the specification words it: bold,
white, the time, the ` [file:line][LABEL]:` segment (without `[file:line]`
in mode Absent) and the level colour. -/
def lineHead (mode : FilePathMode) (stack : List Frame) (record : Record) : String :=
  if mode = FilePathMode.Absent then
    bold ++ colorWhite ++ formatClock record.Time ++ " [" ++
      customLevelToString record.Level ++ "]:" ++ colorByLevel record.Level
  else
    bold ++ colorWhite ++ formatClock record.Time ++ " [" ++
      displayFile mode (resolveCaller stack).1 ++ ":" ++ toString (resolveCaller stack).2 ++
      "][" ++ customLevelToString record.Level ++ "]:" ++ colorByLevel record.Level

/-- In the words of the specification: the stack has a frame at depth `i`
whose function has a name that `isInternalPackage` classifies as
non-internal. -/
def externalAt (stack : List Frame) (i : Nat) : Bool :=
  match stack.get? i with
  | none => false
  | some fr =>
    match fr.function with
    | none => false
    | some name => !isInternalPackage name

/-! ## Sample inputs -/

/-- The frame of `Handle` itself, at the call of `runtime.Caller`. -/
def handleFrame : Frame :=
  { function := some "github.com/Abdrashitoff-Vadim/logx.(*CustomHandler).Handle",
    file := "/src/logx/logx.go", line := 108 }

/-- The frame of `(*slog.Logger).log`, which calls `Handle`. -/
def slogLogFrame : Frame :=
  { function := some "log/slog.(*Logger).log", file := "/go/src/log/slog/logger.go",
    line := 257 }

/-- An application function that calls the logger from `/a/b/c.ext`, line 7. -/
def callerFrame : Frame :=
  { function := some "main.main", file := "/a/b/c.ext", line := 7 }

/-- The call stack seen from `Handle` when the frames `callers` call one of
`logx.Debug`, `logx.Info`, `logx.Warn`, `logx.Error` (named by `tier`, its call
of the `slog` method at line `line` of logx.go). -/
def directStack (tier : String) (line : Int) (callers : List Frame) : List Frame :=
  [ handleFrame, slogLogFrame,
    { function := some ("log/slog.(*Logger)." ++ tier),
      file := "/go/src/log/slog/logger.go", line := 200 },
    { function := some ("github.com/Abdrashitoff-Vadim/logx." ++ tier),
      file := "/src/logx/logx.go", line := line } ] ++ callers

/-- The call stack seen from `Handle` when the frames `callers` call
`logx.Panic` or `logx.Fatal` (named by `tier`), which go through the method of
the same name of `Logger` and `(*slog.Logger).Log`. -/
def wrapperStack (tier : String) (methodLine funcLine : Int) (callers : List Frame) :
    List Frame :=
  [ handleFrame, slogLogFrame,
    { function := some "log/slog.(*Logger).Log",
      file := "/go/src/log/slog/logger.go", line := 190 },
    { function := some ("github.com/Abdrashitoff-Vadim/logx.Logger." ++ tier),
      file := "/src/logx/logx.go", line := methodLine },
    { function := some ("github.com/Abdrashitoff-Vadim/logx." ++ tier),
      file := "/src/logx/logx.go", line := funcLine } ] ++ callers

/-- A call at 01:01:01 with the given call stack, whose write succeeds. -/
def envOf (stack : List Frame) : Env :=
  { now := 3661, stack := stack, writeFails := false }

/-- The call stack seen from `Handle` when `main.main` calls `logx.Info`. -/
def sampleStack : List Frame :=
  directStack "Info" 188 [callerFrame]

/-- A call of `logx.Info` from `main.main` at 01:01:01. -/
def sampleEnv : Env :=
  envOf sampleStack

/-- A call of `logx.Panic` from `main.main` at 01:01:01. -/
def samplePanicEnv : Env :=
  envOf (wrapperStack "Panic" 154 203 [callerFrame])

/-- A call of `logx.Fatal` from `main.main` at 01:01:01. -/
def sampleFatalEnv : Env :=
  envOf (wrapperStack "Fatal" 160 208 [callerFrame])

/-- A record at Info level with the attributes `a=1` and `b=2`. -/
def keyedRecord : Record :=
  { Time := 3661, Level := 0, Message := "m",
    attrs := [{ Key := "a", Value := GoValue.int 1 }, { Key := "b", Value := GoValue.int 2 }] }

/-- The call stack of `sampleStack` with the caller's file at `/a/b/logx.ext`. -/
def logxNamedFileStack : List Frame :=
  sampleStack.take 4 ++ [{ function := some "main.main", file := "/a/b/logx.ext", line := 7 }]

/-- A record whose one attribute has the key `!BADKEY`. -/
def badKeyRecord (t : Nat) (l : Int) (msg : String) (X : GoValue) : Record :=
  { Time := t, Level := l, Message := msg, attrs := [{ Key := badKey, Value := X }] }

/-- A record at Info level without attributes. -/
def plainRecord (msg : String) : Record :=
  { Time := 3661, Level := 0, Message := msg, attrs := [] }

theorem parsenumAux_length (s : List Char) (num : Nat) (isnum : Bool) :
    (parsenumAux s num isnum).2.2.length ≤ s.length := by
  induction s generalizing num isnum with
  | nil => simp [parsenumAux]
  | cons c cs ih =>
    unfold parsenumAux
    split
    · split
      · simp
      · exact Nat.le_succ_of_le (ih _ _)
    · simp

theorem parseArgNumber_length (format : List Char) :
    (parseArgNumber format).2.length ≤ format.length := by
  unfold parseArgNumber
  split
  · simp
  · split
    · rename_i inner rest hspan
      have hdrop : format.tail.dropWhile (fun c => c != ']') = ']' :: rest := by
        rw [List.span_eq_take_drop] at hspan
        exact (Prod.mk.inj hspan).2
      have h1 : (']' :: rest).length ≤ format.tail.length := by
        rw [← hdrop]
        exact (List.dropWhile_suffix _).length_le
      have h2 : format.tail.length ≤ format.length := by simp
      have h3 : rest.length ≤ format.length := by
        simp only [List.length_cons] at h1
        omega
      simp only []
      split <;> exact h3
    · simp

theorem argNumber_length (good : Bool) (format : List Char) :
    (argNumber good format).2.1.length ≤ format.length := by
  unfold argNumber
  split
  · exact parseArgNumber_length _
  · exact Nat.le_refl _

theorem doWidth_length (good : Bool) (format : List Char) (afterIndex : Bool) :
    (doWidth good format afterIndex).2.2.1.length ≤ format.length := by
  unfold doWidth
  split
  · simp
  · exact parsenumAux_length _ _ _

theorem doPrecision_length (good : Bool) (format : List Char) (afterIndex : Bool) :
    (doPrecision good format afterIndex).2.2.1.length ≤ format.length := by
  unfold doPrecision
  split
  · rename_i r
    have h := argNumber_length (good && !afterIndex) r
    simp only []
    split
    · rename_i r2 heq
      simp only [heq, List.length_cons] at h ⊢
      omega
    · have h2 := parsenumAux_length (argNumber (good && !afterIndex) r).2.1 0 false
      simp only [List.length_cons]
      exact Nat.le_succ_of_le (Nat.le_trans h2 h)
  · exact Nat.le_refl _

theorem doVerbChar_length (good : Bool) (format rest : List Char) (out : String)
    (h : doVerbChar good format = (out, some rest)) : rest.length < format.length := by
  unfold doVerbChar at h
  split at h
  · simp at h
  · rename_i verb r
    have hr : rest = r := by
      split at h
      · exact ((Option.some.inj (Prod.mk.inj h).2)).symm
      · split at h
        · exact ((Option.some.inj (Prod.mk.inj h).2)).symm
        · exact ((Option.some.inj (Prod.mk.inj h).2)).symm
    simp [hr]

theorem doVerb_length (format rest : List Char) (out : String)
    (h : doVerb format = (out, some rest)) : rest.length < format.length := by
  unfold doVerb at h
  simp only [] at h
  have h0 := (List.dropWhile_suffix
    (fun c => c == '#' || c == '0' || c == '+' || c == '-' || c == ' ') (l := format)).length_le
  generalize format.dropWhile
    (fun c => c == '#' || c == '0' || c == '+' || c == '-' || c == ' ') = i0 at h h0
  have h1 := argNumber_length true i0
  generalize argNumber true i0 = r1 at h h1
  obtain ⟨g1, i1, a1⟩ := r1
  have h2 := doWidth_length g1 i1 a1
  generalize doWidth g1 i1 a1 = r2 at h h2
  obtain ⟨o2, g2, i2, a2⟩ := r2
  have h3 := doPrecision_length g2 i2 a2
  generalize doPrecision g2 i2 a2 = r3 at h h3
  obtain ⟨o3, g3, i3, a3⟩ := r3
  have h4 := argNumber_length g3 i3
  simp only [] at h h1 h2 h3
  cases a3 with
  | true =>
    simp only [if_true] at h
    have h5 := doVerbChar_length g3 i3 rest _ (Prod.ext rfl (Prod.mk.inj h).2)
    omega
  | false =>
    simp only [Bool.false_eq_true, if_false] at h
    have h5 := doVerbChar_length _ _ rest _ (Prod.ext rfl (Prod.mk.inj h).2)
    omega

/-- The fuel `doPrintf` is given is enough: any two fuels above the length of
the format give the same text. -/
theorem doPrintf_fuel (format : List Char) (n m : Nat) (hn : format.length < n)
    (hm : format.length < m) : doPrintf n format = doPrintf m format := by
  induction n generalizing m format with
  | zero => exact absurd hn (Nat.not_lt_zero _)
  | succ n ih =>
    cases m with
    | zero => exact absurd hm (Nat.not_lt_zero _)
    | succ m =>
      unfold doPrintf
      split
      · rfl
      · rename_i lit c afterPercent hspan
        have hlen : afterPercent.length < format.length := by
          have hdrop : format.dropWhile (fun c => c != '%') = c :: afterPercent := by
            rw [List.span_eq_take_drop] at hspan
            exact (Prod.mk.inj hspan).2
          have := (List.dropWhile_suffix (fun c => c != '%') (l := format)).length_le
          rw [hdrop, List.length_cons] at this
          omega
        split
        · rfl
        · rename_i out rest hverb
          have hrest := doVerb_length _ _ _ hverb
          rw [ih rest m (by omega) (by omega)]

/-! ## Handler gate -/

/-- Building the singleton changes neither the minimum level, nor the path
mode, nor the error stream. -/
theorem getLogger_frame (w : World) :
    (getLogger w).1.logLevel = w.logLevel ∧ (getLogger w).1.stderr = w.stderr ∧
    (getLogger w).1.filePathMode = w.filePathMode := by
  unfold getLogger initLogger
  split <;> simp

/-- In a state where the `once` flag is set only after the logger was built
(as at program start, and ever after), `getLogger` returns a logger that is
not nil, and leaves the state so. -/
theorem getLogger_not_nil (w : World) (hw : w.once = true → w.globalLogger ≠ none) :
    (getLogger w).2 ≠ none ∧
    ((getLogger w).1.once = true → (getLogger w).1.globalLogger ≠ none) := by
  unfold getLogger initLogger
  cases h : w.once
  · simp
  · simpa [h] using hw h

/-- The dispatch leaves the minimum level alone. -/
theorem loggerLog_logLevel (w : World) (env : Env) (level : Int) (msg : String)
    (args : List GoValue) : (loggerLog w env level msg args).logLevel = w.logLevel := by
  unfold loggerLog Handle
  split <;> rfl

/-- The function `Panic` in terms of the dispatch: its receiver wraps a logger
on a `CustomHandler`. -/
theorem Panic_eq (w : World) (env : Env) (msg : String) (args : List GoValue) :
    Panic w env msg args =
      if (getLogger w).1.logLevel ≤ lvlPanic then
        (loggerLog (getLogger w).1 env lvlPanic msg [GoValue.slice [GoValue.slice args]],
          Outcome.panicked "")
      else ((getLogger w).1, Outcome.returned) := by
  unfold Panic Logger.Panic SlogLogger.Log
  rfl

/-- The function `Fatal` in terms of the dispatch. -/
theorem Fatal_eq (w : World) (env : Env) (msg : String) (args : List GoValue) :
    Fatal w env msg args =
      (loggerLog (getLogger w).1 env lvlFatal msg [GoValue.slice [GoValue.slice args]],
        Outcome.exited 1) := by
  unfold Fatal Logger.Fatal SlogLogger.Log
  rfl

/-- C1: `Enabled(S)` is true exactly when `S` is at least the configured
minimum: the current value of `logLevel`, which is `M` after `SetLevel(M)`
whatever it was before, is the Debug tier at program start, and is left alone
by `SetPathMode` and by the six entry points. -/
theorem Enabled_iff_ge_minimum (w : World) (M S : Int) (mode : FilePathMode) (env : Env)
    (msg : String) (args : List GoValue) :
    (Enabled w S = true ↔ S ≥ w.logLevel) ∧
    (Enabled (SetLevel w M) S = true ↔ S ≥ M) ∧
    (Enabled World.initial S = true ↔ S ≥ slogLevelDebug) ∧
    Enabled (SetPathMode w mode) S = Enabled w S ∧
    Enabled (Debug w env msg args).1 S = Enabled w S ∧
    Enabled (Info w env msg args).1 S = Enabled w S ∧
    Enabled (Warn w env msg args).1 S = Enabled w S ∧
    Enabled (Error w env msg args).1 S = Enabled w S ∧
    Enabled (Panic w env msg args).1 S = Enabled w S ∧
    Enabled (Fatal w env msg args).1 S = Enabled w S := by
  have hl := (getLogger_frame w).1
  have hpanic : (Panic w env msg args).1.logLevel = w.logLevel := by
    rw [Panic_eq]
    split
    · rw [loggerLog_logLevel, hl]
    · exact hl
  refine ⟨by simp [Enabled], by simp [Enabled, SetLevel], by simp [Enabled, World.initial],
    by simp [Enabled, SetPathMode], ?_, ?_, ?_, ?_, ?_, ?_⟩
  · simp only [Enabled, Debug, loggerLog_logLevel, hl]
  · simp only [Enabled, Info, loggerLog_logLevel, hl]
  · simp only [Enabled, Warn, loggerLog_logLevel, hl]
  · simp only [Enabled, Error, loggerLog_logLevel, hl]
  · simp only [Enabled, hpanic]
  · simp only [Enabled, Fatal_eq, loggerLog_logLevel, hl]

/-! ## Termination actions -/

/-- The rendered line is the layout head, a space, the message, the attribute
segment, the reset sequence and a newline. -/
theorem handleMsg_layout (mode : FilePathMode) (stack : List Frame) (record : Record) :
    handleMsg mode stack record =
      lineHead mode stack record ++ " " ++ record.Message ++ handleAttrs record ++
        colorReset ++ "\n" := by
  unfold handleMsg lineHead
  by_cases h : mode = FilePathMode.Absent
  · simp only [h, if_true, String.append_assoc]
  · simp only [h, if_false, String.append_assoc]

/-- C4 (the code departs from it): for the record of `Info("100%")` the
rendered line ends in the reset sequence and a newline, but the bytes `Handle`
writes are not that line: the `%` eats the escape character of the reset
sequence and `%!\x1b(MISSING)` is written instead.  For the message
`rate=%d` the written bytes do not even contain the message. -/
theorem Handle_percent_in_message_garbles_output :
    handleMsg FilePathMode.Short sampleStack
        { Time := 3661, Level := 0, Message := "100%", attrs := [] } =
      "\x1b[1m\x1b[97m01:01:01 [c.ext:7][INFO]:\x1b[97m 100%\x1b[0m\n" ∧
    (Handle World.initial sampleEnv
        { Time := 3661, Level := 0, Message := "100%", attrs := [] }).1.stderr =
      ["\x1b[1m\x1b[97m01:01:01 [c.ext:7][INFO]:\x1b[97m 100%!\x1b(MISSING)[0m\n"] ∧
    (Info World.initial sampleEnv "100%" []).1.stderr =
      ["\x1b[1m\x1b[97m01:01:01 [c.ext:7][INFO]:\x1b[97m 100%!\x1b(MISSING)[0m\n"] ∧
    ¬ (colorReset ++ "\n").data <:+
      ("\x1b[1m\x1b[97m01:01:01 [c.ext:7][INFO]:\x1b[97m 100%!\x1b(MISSING)[0m\n").data ∧
    (Handle World.initial sampleEnv
        { Time := 3661, Level := 0, Message := "rate=%d", attrs := [] }).1.stderr =
      ["\x1b[1m\x1b[97m01:01:01 [c.ext:7][INFO]:\x1b[97m rate=%!d(MISSING)\x1b[0m\n"] ∧
    ¬ ("rate=%d").data <:+:
      ("\x1b[1m\x1b[97m01:01:01 [c.ext:7][INFO]:\x1b[97m rate=%!d(MISSING)\x1b[0m\n").data := by
  refine ⟨by decide, by decide, by decide, by decide, by decide, by decide⟩

/-- What the loop of lines 92-99 leaves in `attrs`, started from `init`. -/
theorem foldl_attrText_keyed (attrs : List Attr) (init : String)
    (h : ∀ a ∈ attrs, a.Key ≠ badKey) :
    attrs.foldl (fun acc a => acc ++ attrText a) init = init ++ kvSegment attrs := by
  induction attrs generalizing init with
  | nil => simp [kvSegment]
  | cons a rest ih =>
    have ha : a.Key ≠ "!BADKEY" := h a (List.mem_cons_self _ _)
    rw [List.foldl_cons, ih _ (fun b hb => h b (List.mem_cons_of_mem _ hb))]
    simp [attrText, kvSegment, ha, String.append_assoc]

/-- A segment of keyed tokens is never the text ` []`: it is empty or holds
an equals sign. -/
theorem kvSegment_ne_brackets (attrs : List Attr) : kvSegment attrs ≠ " []" := by
  cases attrs with
  | nil => decide
  | cons a rest =>
    intro h
    have hmem : '=' ∈ (kvSegment (a :: rest)).data := by
      simp [kvSegment, String.data_append]
    rw [h] at hmem
    exact absurd hmem (by decide)

/-- C5: for a record none of whose keys is `!BADKEY`, the attribute segment
is the concatenation of the tokens ` key=value` in insertion order, and the
rendered line carries it right after the message and before the reset
sequence; for `a=1, b=2` it is ` a=1 b=2`, without attributes it is empty. -/
theorem handleAttrs_keyed_tokens (mode : FilePathMode) (stack : List Frame)
    (record : Record) (h : ∀ a ∈ record.attrs, a.Key ≠ badKey) :
    handleAttrs record = kvSegment record.attrs ∧
    handleMsg mode stack record =
      lineHead mode stack record ++ " " ++ record.Message ++ kvSegment record.attrs ++
        colorReset ++ "\n" ∧
    kvSegment [{ Key := "a", Value := GoValue.int 1 }, { Key := "b", Value := GoValue.int 2 }]
      = " a=1 b=2" ∧
    kvSegment [] = "" := by
  have hseg : handleAttrs record = kvSegment record.attrs := by
    unfold handleAttrs
    simp only [foldl_attrText_keyed record.attrs "" h, String.empty_append,
      kvSegment_ne_brackets, if_false]
  refine ⟨hseg, ?_, by decide, rfl⟩
  rw [handleMsg_layout, hseg]

/-- Witness for C5: the record with attributes `a=1`, `b=2`. -/
theorem handleAttrs_keyed_tokens_witness :
    handleAttrs keyedRecord = " a=1 b=2" ∧
    handleMsg FilePathMode.Short sampleStack keyedRecord =
      "\x1b[1m\x1b[97m01:01:01 [c.ext:7][INFO]:\x1b[97m m a=1 b=2\x1b[0m\n" :=
  ⟨(handleAttrs_keyed_tokens FilePathMode.Short sampleStack keyedRecord (by decide)).1,
   by decide⟩

/-- C6 (the code departs from it): called with a message and no arguments,
`Panic` and `Fatal` hand `Handle` a record whose one attribute holds a slice
inside a slice; its text is `[[]]`, which line 101 does not strip, so the
line reads `boom [[]]`.  The four other entry points hand over an empty slice,
whose ` []` is stripped: they render `boom` alone. -/
theorem Panic_Fatal_without_args_render_brackets :
    (∀ (env : Env) (level : Int) (msg : String),
      handleAttrs (newRecord env level msg [GoValue.slice [GoValue.slice []]]) = " [[]]") ∧
    (∀ (env : Env) (level : Int) (msg : String),
      handleAttrs (newRecord env level msg [GoValue.slice []]) = "") ∧
    (Panic World.initial samplePanicEnv "boom" []).1.stderr =
      ["\x1b[1m\x1b[97m01:01:01 [c.ext:7][PANIC]:\x1b[31m boom [[]]\x1b[0m\n"] ∧
    (Fatal World.initial sampleFatalEnv "boom" []).1.stderr =
      ["\x1b[1m\x1b[97m01:01:01 [c.ext:7][FATAL]:\x1b[31m boom [[]]\x1b[0m\n"] ∧
    (Debug World.initial (envOf (directStack "Debug" 183 [callerFrame])) "boom" []).1.stderr =
      ["\x1b[1m\x1b[97m01:01:01 [c.ext:7][DEBUG]:\x1b[34m boom\x1b[0m\n"] ∧
    (Info World.initial sampleEnv "boom" []).1.stderr =
      ["\x1b[1m\x1b[97m01:01:01 [c.ext:7][INFO]:\x1b[97m boom\x1b[0m\n"] ∧
    (Warn World.initial (envOf (directStack "Warn" 193 [callerFrame])) "boom" []).1.stderr =
      ["\x1b[1m\x1b[97m01:01:01 [c.ext:7][WARN]:\x1b[33m boom\x1b[0m\n"] ∧
    (Error World.initial (envOf (directStack "Error" 198 [callerFrame])) "boom" []).1.stderr =
      ["\x1b[1m\x1b[97m01:01:01 [c.ext:7][ERROR]:\x1b[31m boom\x1b[0m\n"] := by
  refine ⟨fun _ _ _ => rfl, fun _ _ _ => rfl, by decide, by decide, by decide, by decide,
    by decide, by decide⟩

/-- C7, as stated, fails twice.  A value whose default text is `[]` (here
the string `[]`) leaves no attribute segment at all: the line has no ` []`.
And the line can contain ` !BADKEY=7` for the value 7, when the message
does. -/
theorem badKey_value_brackets_is_dropped :
    handleAttrs (badKeyRecord 3661 0 "m" (GoValue.str "[]")) = "" ∧
    handleMsg FilePathMode.Short sampleStack (badKeyRecord 3661 0 "m" (GoValue.str "[]")) =
      "\x1b[1m\x1b[97m01:01:01 [c.ext:7][INFO]:\x1b[97m m\x1b[0m\n" ∧
    ¬ (" " ++ sprint (GoValue.str "[]")).data <:+:
      (handleMsg FilePathMode.Short sampleStack (badKeyRecord 3661 0 "m" (GoValue.str "[]"))).data ∧
    (" !BADKEY=" ++ sprint (GoValue.int 7)).data <:+:
      (handleMsg FilePathMode.Short sampleStack
        (badKeyRecord 3661 0 "see !BADKEY=7" (GoValue.int 7))).data := by
  refine ⟨by decide, by decide, by decide, by decide⟩

/-- C7, amended: for a record whose only attribute has the key `!BADKEY` and
a value `X` whose default text is not `[]`, the attribute segment is a space
and the default text of `X`; the line carries it between the message and the
reset sequence, and the segment does not contain ` !BADKEY=X`.  When the
default text of `X` is `[]` the segment is empty. -/
theorem handleAttrs_badKey_bare_value (mode : FilePathMode) (stack : List Frame)
    (t : Nat) (l : Int) (msg : String) (X : GoValue) :
    (sprint X ≠ "[]" →
      handleAttrs (badKeyRecord t l msg X) = " " ++ sprint X ∧
      handleMsg mode stack (badKeyRecord t l msg X) =
        lineHead mode stack (badKeyRecord t l msg X) ++ " " ++ msg ++ " " ++ sprint X ++
          colorReset ++ "\n" ∧
      (" " ++ sprint X).data <:+: (handleMsg mode stack (badKeyRecord t l msg X)).data ∧
      ¬ (" !BADKEY=" ++ sprint X).data <:+: (handleAttrs (badKeyRecord t l msg X)).data) ∧
    (sprint X = "[]" →
      handleAttrs (badKeyRecord t l msg X) = "") := by
  have hfold : ∀ r : Record, r.attrs = [{ Key := badKey, Value := X }] →
      r.attrs.foldl (fun acc a => acc ++ attrText a) "" = " " ++ sprint X := by
    intro r hr
    rw [hr]
    simp [attrText, badKey]
  constructor
  · intro hX
    have hne : " " ++ sprint X ≠ " []" := by
      intro h
      apply hX
      have hd := congrArg String.data h
      rw [String.data_append] at hd
      exact String.ext (List.cons.inj hd).2
    have hseg : handleAttrs (badKeyRecord t l msg X) = " " ++ sprint X := by
      unfold handleAttrs
      simp only [hfold (badKeyRecord t l msg X) rfl, hne, if_false]
    refine ⟨hseg, ?_, ?_, ?_⟩
    · rw [handleMsg_layout, hseg]
      simp only [String.append_assoc, badKeyRecord]
    · rw [handleMsg_layout, hseg]
      have hmsg : (badKeyRecord t l msg X).Message = msg := rfl
      rw [hmsg]
      refine ⟨(lineHead mode stack (badKeyRecord t l msg X) ++ " " ++ msg).data,
        (colorReset ++ "\n").data, ?_⟩
      simp only [String.data_append, List.append_assoc]
    · rw [hseg]
      intro hinf
      have hlen := hinf.length_le
      simp only [String.data_append, List.length_append] at hlen
      have h9 : (" !BADKEY=" : String).data.length = 9 := by decide
      have h1 : (" " : String).data.length = 1 := by decide
      rw [h9, h1] at hlen
      omega
  · intro hX
    unfold handleAttrs
    simp only [hfold (badKeyRecord t l msg X) rfl, hX]
    decide

/-- Witness for C7: the value 7 renders as ` 7`; the empty slice, whose
default text is `[]`, renders as nothing. -/
theorem handleAttrs_badKey_bare_value_witness :
    handleAttrs (badKeyRecord 3661 0 "m" (GoValue.int 7)) = " " ++ sprint (GoValue.int 7) ∧
    handleAttrs (badKeyRecord 3661 0 "m" (GoValue.slice [])) = "" :=
  ⟨((handleAttrs_badKey_bare_value FilePathMode.Short sampleStack 3661 0 "m"
      (GoValue.int 7)).1 (by decide)).1,
   (handleAttrs_badKey_bare_value FilePathMode.Short sampleStack 3661 0 "m"
      (GoValue.slice [])).2 (by decide)⟩

/-- C8: in mode Absent the rendered line is bold, white, the time, ` [LABEL]:`,
the level colour, a space, the message, the attribute segment, the reset
sequence and a newline, for every severity; no call stack changes it, nor
what `Handle` writes. -/
theorem handleMsg_Absent_omits_call_site (w : World) (env : Env) (stack stack2 : List Frame)
    (record : Record) :
    handleMsg FilePathMode.Absent stack record =
      bold ++ colorWhite ++ formatClock record.Time ++ " [" ++
        customLevelToString record.Level ++ "]:" ++ colorByLevel record.Level ++ " " ++
        record.Message ++ handleAttrs record ++ colorReset ++ "\n" ∧
    handleMsg FilePathMode.Absent stack record = handleMsg FilePathMode.Absent stack2 record ∧
    Handle (SetPathMode w FilePathMode.Absent) { env with stack := stack } record =
      Handle (SetPathMode w FilePathMode.Absent) { env with stack := stack2 } record ∧
    (Handle (SetPathMode w FilePathMode.Absent) env record).1.stderr =
      w.stderr ++ [Fprintf (handleMsg FilePathMode.Absent stack record)] := by
  have h : ∀ s : List Frame, handleMsg FilePathMode.Absent s record =
      bold ++ colorWhite ++ formatClock record.Time ++ " [" ++
        customLevelToString record.Level ++ "]:" ++ colorByLevel record.Level ++ " " ++
        record.Message ++ handleAttrs record ++ colorReset ++ "\n" := by
    intro s
    simp only [handleMsg, if_true]
  refine ⟨h stack, by rw [h stack, h stack2], ?_, ?_⟩
  · simp only [Handle, SetPathMode, h]
  · simp only [Handle, SetPathMode, h]

/-! ## Path display modes -/

theorem rtakeWhile_after_last {α : Type} (p : α → Bool) (l m : List α) (x : α)
    (hx : p x = false) (hm : ∀ y ∈ m, p y = true) :
    (l ++ x :: m).rtakeWhile p = m := by
  unfold List.rtakeWhile
  rw [List.reverse_append, List.reverse_cons, List.append_assoc]
  rw [List.takeWhile_append_of_pos (by simpa using hm)]
  simp [List.takeWhile, hx]

theorem rdropWhile_of_last {α : Type} (p : α → Bool) (l m : List α)
    (hne : m ≠ []) (hm : ∀ y ∈ m, p y = false) :
    (l ++ m).rdropWhile p = l ++ m := by
  rw [List.rdropWhile_eq_self_iff]
  intro hl
  rw [List.getLast_append_of_ne_nil hne]
  have := hm _ (List.getLast_mem hne)
  simp [this]

theorem filepathBase_dir_name (dir name : String) (hne : name ≠ "")
    (hs : '/' ∉ name.data) : filepathBase (dir ++ "/" ++ name) = name := by
  have hnd : name.data ≠ [] := fun h => hne (String.ext h)
  have hdata : (dir ++ "/" ++ name).data = dir.data ++ '/' :: name.data := by
    simp [String.data_append]
  have hpath : dir ++ "/" ++ name ≠ "" := by
    intro h
    have := congrArg String.data h
    rw [hdata] at this
    simp at this
  have hdrop : (dir.data ++ '/' :: name.data).rdropWhile (fun c => c == '/') =
      dir.data ++ '/' :: name.data := by
    have := rdropWhile_of_last (fun c => c == '/') (dir.data ++ ['/']) name.data hnd
      (by intro y hy; have : y ≠ '/' := fun e => hs (e ▸ hy); simpa using this)
    simpa using this
  have htake : (dir.data ++ '/' :: name.data).rtakeWhile (fun c => c != '/') = name.data :=
    rtakeWhile_after_last _ _ _ _ (by simp)
      (by intro y hy; have : y ≠ '/' := fun e => hs (e ▸ hy); simpa using this)
  unfold filepathBase
  simp only [hpath, if_false, hdata, hdrop, htake, hnd]

/-! ## Characters of the rendered fields -/

/-- Every character `Nat.toDigitsCore` adds in base 10 is a decimal digit. -/
theorem toDigitsCore_chars (f n : Nat) (ds : List Char) (c : Char)
    (h : c ∈ Nat.toDigitsCore 10 f n ds) : c ∈ ds ∨ c ∈ "0123456789".data := by
  induction f generalizing n ds with
  | zero => exact Or.inl (by simpa [Nat.toDigitsCore] using h)
  | succ f ih =>
    have hd : Nat.digitChar (n % 10) ∈ "0123456789".data := by
      have hlt : n % 10 < 10 := Nat.mod_lt _ (by decide)
      generalize n % 10 = d at hlt
      interval_cases d <;> decide
    unfold Nat.toDigitsCore at h
    simp only [] at h
    split at h
    · rcases List.mem_cons.mp h with h | h
      · exact Or.inr (h ▸ hd)
      · exact Or.inl h
    · rcases ih _ _ h with h | h
      · rcases List.mem_cons.mp h with h | h
        · exact Or.inr (h ▸ hd)
        · exact Or.inl h
      · exact Or.inr h

theorem toString_nat_chars (n : Nat) (c : Char) (h : c ∈ (toString n).data) :
    c ∈ "0123456789".data := by
  have h2 : c ∈ Nat.toDigitsCore 10 (n + 1) n [] := h
  rcases toDigitsCore_chars _ _ _ _ h2 with h | h
  · exact absurd h (List.not_mem_nil _)
  · exact h

theorem toString_int_chars (i : Int) (c : Char) (h : c ∈ (toString i).data) :
    c ∈ "-0123456789".data := by
  cases i with
  | ofNat n =>
    have h2 : c ∈ (toString n).data := h
    have := toString_nat_chars n c h2
    exact List.mem_cons_of_mem _ this
  | negSucc n =>
    have h2 : c ∈ ("-" ++ toString (n + 1)).data := h
    rw [String.data_append] at h2
    rcases List.mem_append.mp h2 with h3 | h3
    · have : c = '-' := by simpa using h3
      rw [this]; decide
    · exact List.mem_cons_of_mem _ (toString_nat_chars _ c h3)

theorem not_mem_append_data (c : Char) (a b : String) :
    c ∉ (a ++ b).data ↔ c ∉ a.data ∧ c ∉ b.data := by
  simp [String.data_append, List.mem_append, not_or]

theorem twoDigits_no_newline (n : Nat) : '\n' ∉ (twoDigits n).data := by
  intro h
  unfold twoDigits at h
  rw [String.data_append] at h
  rcases List.mem_append.mp h with h | h
  · split at h
    · exact absurd h (by decide)
    · exact absurd h (by decide)
  · exact absurd (toString_nat_chars _ _ h) (by decide)

theorem formatClock_no_newline (t : Nat) : '\n' ∉ (formatClock t).data := by
  unfold formatClock
  simp only [not_mem_append_data]
  exact ⟨⟨⟨⟨twoDigits_no_newline _, by decide⟩, twoDigits_no_newline _⟩, by decide⟩,
    twoDigits_no_newline _⟩

theorem toString_int_no_newline (i : Int) : '\n' ∉ (toString i).data :=
  fun h => absurd (toString_int_chars i _ h) (by decide)

theorem fmtPlusD_no_newline (v : Int) : '\n' ∉ (fmtPlusD v).data := by
  unfold fmtPlusD
  split
  · rw [not_mem_append_data]
    exact ⟨by decide, fun h => absurd (toString_nat_chars _ _ h) (by decide)⟩
  · exact toString_int_no_newline v

theorem levelString_no_newline (l : Int) : '\n' ∉ (levelString l).data := by
  have hstr : ∀ (base : String) (val : Int), '\n' ∉ base.data →
      '\n' ∉ (if val = 0 then base else base ++ fmtPlusD val).data := by
    intro base val hb
    split
    · exact hb
    · rw [not_mem_append_data]
      exact ⟨hb, fmtPlusD_no_newline val⟩
  unfold levelString
  simp only []
  split
  · exact hstr _ _ (by decide)
  · split
    · exact hstr _ _ (by decide)
    · split
      · exact hstr _ _ (by decide)
      · exact hstr _ _ (by decide)

theorem customLevelToString_no_newline (l : Int) :
    '\n' ∉ (customLevelToString l).data := by
  unfold customLevelToString
  split
  · decide
  · split
    · decide
    · exact levelString_no_newline l

theorem colorByLevel_no_newline (l : Int) : '\n' ∉ (colorByLevel l).data := by
  unfold colorByLevel
  split
  · decide
  · split
    · decide
    · split
      · decide
      · decide

theorem attrText_no_newline (a : Attr) (hk : '\n' ∉ a.Key.data)
    (hv : '\n' ∉ (sprint a.Value).data) : '\n' ∉ (attrText a).data := by
  unfold attrText
  split
  · rw [not_mem_append_data]
    exact ⟨by decide, hv⟩
  · simp only [not_mem_append_data]
    exact ⟨⟨⟨by decide, hk⟩, by decide⟩, hv⟩

theorem foldl_attrText_no_newline (attrs : List Attr) (init : String)
    (hi : '\n' ∉ init.data)
    (h : ∀ a ∈ attrs, '\n' ∉ a.Key.data ∧ '\n' ∉ (sprint a.Value).data) :
    '\n' ∉ (attrs.foldl (fun acc a => acc ++ attrText a) init).data := by
  induction attrs generalizing init with
  | nil => exact hi
  | cons a rest ih =>
    rw [List.foldl_cons]
    apply ih
    · rw [not_mem_append_data]
      exact ⟨hi, attrText_no_newline a (h a (List.mem_cons_self _ _)).1
        (h a (List.mem_cons_self _ _)).2⟩
    · exact fun b hb => h b (List.mem_cons_of_mem _ hb)

theorem handleAttrs_no_newline (record : Record)
    (h : ∀ a ∈ record.attrs, '\n' ∉ a.Key.data ∧ '\n' ∉ (sprint a.Value).data) :
    '\n' ∉ (handleAttrs record).data := by
  unfold handleAttrs
  simp only []
  split
  · decide
  · exact foldl_attrText_no_newline _ _ (by decide) h

theorem filepathBase_no_newline (path : String) (h : '\n' ∉ path.data) :
    '\n' ∉ (filepathBase path).data := by
  unfold filepathBase
  simp only []
  split
  · decide
  · split
    · decide
    · intro hmem
      have h1 := (List.rtakeWhile_suffix (fun c => c != '/')
        (path.data.rdropWhile (fun c => c == '/'))).subset hmem
      exact h ((List.rdropWhile_prefix (fun c => c == '/') path.data).subset h1)

theorem callerLoop_file (stack : List Frame) (i n : Nat) :
    (callerLoop stack i n).1 = "unknown" ∨ ∃ fr ∈ stack, (callerLoop stack i n).1 = fr.file := by
  induction n generalizing i with
  | zero => exact Or.inl rfl
  | succ n ih =>
    unfold callerLoop
    cases hget : stack.get? i with
    | none => exact ih (i + 1)
    | some fr =>
      simp only []
      cases hfn : fr.function with
      | none => exact ih (i + 1)
      | some funcName =>
        simp only []
        split
        · exact Or.inr ⟨fr, List.get?_mem hget, rfl⟩
        · exact ih (i + 1)

theorem displayFile_no_newline (mode : FilePathMode) (stack : List Frame)
    (h : ∀ fr ∈ stack, '\n' ∉ fr.file.data) :
    '\n' ∉ (displayFile mode (resolveCaller stack).1).data := by
  have hres : '\n' ∉ (resolveCaller stack).1.data := by
    unfold resolveCaller
    rcases callerLoop_file stack 2 13 with h1 | ⟨fr, hfr, h1⟩
    · rw [h1]; decide
    · rw [h1]; exact h fr hfr
  unfold displayFile
  split
  · exact filepathBase_no_newline _ hres
  · exact hres

/-- C9, as stated, fails: the caller's file `/a/b/logx.ext` has the final
component `logx.ext`, but its path contains `logx.`, so `isInternalPackage`
classifies it as internal and mode Short leaves the directory part in. -/
theorem Short_keeps_directory_of_internal_looking_path :
    resolveCaller logxNamedFileStack = ("/a/b/logx.ext", 7) ∧
    filepathBase "/a/b/logx.ext" = "logx.ext" ∧
    displayFile FilePathMode.Short "/a/b/logx.ext" = "/a/b/logx.ext" ∧
    displayFile FilePathMode.Short "/a/b/logx.ext" ≠ "logx.ext" ∧
    handleMsg FilePathMode.Short logxNamedFileStack (plainRecord "m") =
      "\x1b[1m\x1b[97m01:01:01 [/a/b/logx.ext:7][INFO]:\x1b[97m m\x1b[0m\n" := by
  refine ⟨by decide, by decide, by decide, by decide, by decide⟩

/-- C9, amended: in mode Short, a resolved path `dir/name` whose final
component `name` is not empty and that `isInternalPackage` does not classify
as internal is shown as `name` alone in the `[file:line]` segment; a path
classified as internal is shown whole. -/
theorem Short_shows_final_component (dir name : String) (stack : List Frame)
    (record : Record) (hne : name ≠ "") (hs : '/' ∉ name.data)
    (hres : (resolveCaller stack).1 = dir ++ "/" ++ name) :
    (isInternalPackage (dir ++ "/" ++ name) = false →
      displayFile FilePathMode.Short (dir ++ "/" ++ name) = name ∧
      handleMsg FilePathMode.Short stack record =
        bold ++ colorWhite ++ formatClock record.Time ++ " [" ++ name ++ ":" ++
          toString (resolveCaller stack).2 ++ "][" ++ customLevelToString record.Level ++
          "]:" ++ colorByLevel record.Level ++ " " ++ record.Message ++
          handleAttrs record ++ colorReset ++ "\n") ∧
    (isInternalPackage (dir ++ "/" ++ name) = true →
      displayFile FilePathMode.Short (dir ++ "/" ++ name) = dir ++ "/" ++ name) := by
  constructor
  · intro hint
    have hd : displayFile FilePathMode.Short (dir ++ "/" ++ name) = name := by
      unfold displayFile
      simp only [hint, and_self, if_true]
      exact filepathBase_dir_name dir name hne hs
    refine ⟨hd, ?_⟩
    unfold handleMsg
    simp only [hres, hd, if_false, reduceCtorEq]
  · intro hint
    unfold displayFile
    simp [hint]

/-- Witness for C9: the caller's file `/a/b/c.ext` is shown as `c.ext`. -/
theorem Short_shows_final_component_witness :
    displayFile FilePathMode.Short ("/a/b" ++ "/" ++ "c.ext") = "c.ext" ∧
    handleMsg FilePathMode.Short sampleStack (plainRecord "m") =
      "\x1b[1m\x1b[97m01:01:01 [c.ext:7][INFO]:\x1b[97m m\x1b[0m\n" ∧
    displayFile FilePathMode.Short ("/a/b" ++ "/" ++ "logx.ext") =
      "/a/b" ++ "/" ++ "logx.ext" :=
  ⟨((Short_shows_final_component "/a/b" "c.ext" sampleStack (plainRecord "m")
      (by decide) (by decide) (by decide)).1 (by decide)).1,
   by decide,
   (Short_shows_final_component "/a/b" "logx.ext" logxNamedFileStack (plainRecord "m")
      (by decide) (by decide) (by decide)).2 (by decide)⟩

/-- C10, as stated, fails: a message with a newline gives a rendered text with
two newline characters. -/
theorem handleMsg_message_newline_counts_twice :
    handleMsg FilePathMode.Short sampleStack (plainRecord "a\nb") =
      "\x1b[1m\x1b[97m01:01:01 [c.ext:7][INFO]:\x1b[97m a\nb\x1b[0m\n" ∧
    (handleMsg FilePathMode.Short sampleStack (plainRecord "a\nb")).data.count '\n' = 2 := by
  refine ⟨by decide, by decide⟩

theorem lineHead_no_newline (mode : FilePathMode) (stack : List Frame) (record : Record)
    (h : ∀ fr ∈ stack, '\n' ∉ fr.file.data) :
    '\n' ∉ (lineHead mode stack record).data := by
  unfold lineHead
  split
  · simp only [not_mem_append_data]
    exact ⟨⟨⟨⟨⟨⟨by decide, by decide⟩, formatClock_no_newline _⟩, by decide⟩,
      customLevelToString_no_newline _⟩, by decide⟩, colorByLevel_no_newline _⟩
  · simp only [not_mem_append_data]
    exact ⟨⟨⟨⟨⟨⟨⟨⟨⟨⟨by decide, by decide⟩, formatClock_no_newline _⟩, by decide⟩,
      displayFile_no_newline mode stack h⟩, by decide⟩, toString_int_no_newline _⟩,
      by decide⟩, customLevelToString_no_newline _⟩, by decide⟩, colorByLevel_no_newline _⟩

/-- C10, amended: the rendered text always ends in a newline; when neither the
message, nor an attribute key or value text, nor a file name of the call
stack holds a newline, that is its only one. -/
theorem handleMsg_single_line (mode : FilePathMode) (stack : List Frame) (record : Record) :
    (handleMsg mode stack record).data.getLast? = some '\n' ∧
    ('\n' ∉ record.Message.data →
      (∀ a ∈ record.attrs, '\n' ∉ a.Key.data ∧ '\n' ∉ (sprint a.Value).data) →
      (∀ fr ∈ stack, '\n' ∉ fr.file.data) →
      (handleMsg mode stack record).data.count '\n' = 1) := by
  have hdata : (handleMsg mode stack record).data =
      (lineHead mode stack record ++ " " ++ record.Message ++ handleAttrs record ++
        colorReset).data ++ ['\n'] := by
    rw [handleMsg_layout, String.data_append]
  constructor
  · rw [hdata]
    exact List.getLast?_concat _
  · intro hmsg hattrs hstack
    have hbody : '\n' ∉ (lineHead mode stack record ++ " " ++ record.Message ++
        handleAttrs record ++ colorReset).data := by
      simp only [not_mem_append_data]
      exact ⟨⟨⟨⟨lineHead_no_newline mode stack record hstack, by decide⟩, hmsg⟩,
        handleAttrs_no_newline record hattrs⟩, by decide⟩
    rw [hdata, List.count_append, List.count_eq_zero_of_not_mem hbody]
    decide

/-- Witness for C10: the line of a plain record holds one newline. -/
theorem handleMsg_single_line_witness :
    (handleMsg FilePathMode.Short sampleStack keyedRecord).data.count '\n' = 1 :=
  (handleMsg_single_line FilePathMode.Short sampleStack keyedRecord).2
    (by decide) (by decide) (by decide)

/-! ## Termination and the write error -/

/-- C12: the label is `PANIC` for 12 and `FATAL` for 16, and the text of
`Level.String` for every other level, which is `DEBUG`, `INFO`, `WARN`,
`ERROR` for the four standard tiers; the six labels differ from one another,
and the two custom ones differ from what `Level.String` gives for 12 and 16,
`ERROR+4` and `ERROR+8`. -/
theorem customLevelToString_labels (level : Int) :
    customLevelToString lvlPanic = "PANIC" ∧
    customLevelToString lvlFatal = "FATAL" ∧
    (level ≠ lvlPanic → level ≠ lvlFatal → customLevelToString level = levelString level) ∧
    customLevelToString slogLevelDebug = "DEBUG" ∧
    customLevelToString slogLevelInfo = "INFO" ∧
    customLevelToString slogLevelWarn = "WARN" ∧
    customLevelToString slogLevelError = "ERROR" ∧
    [customLevelToString slogLevelDebug, customLevelToString slogLevelInfo,
      customLevelToString slogLevelWarn, customLevelToString slogLevelError,
      customLevelToString lvlPanic, customLevelToString lvlFatal].Nodup ∧
    levelString lvlPanic = "ERROR+4" ∧
    levelString lvlFatal = "ERROR+8" ∧
    customLevelToString lvlPanic ≠ levelString lvlPanic ∧
    customLevelToString lvlFatal ≠ levelString lvlFatal := by
  refine ⟨by decide, by decide, ?_, by decide, by decide, by decide, by decide, by decide,
    by decide, by decide, by decide, by decide⟩
  intro h1 h2
  simp only [customLevelToString, h1, h2, if_false]

/-- Witness for C12: level 9 is neither extended tier and is labelled as
`Level.String` does. -/
theorem customLevelToString_labels_witness :
    customLevelToString 9 = levelString 9 :=
  (customLevelToString_labels 9).2.2.1 (by decide) (by decide)

/-- C13: the colour is white for Info, blue for Debug, yellow for Warn and
red for every other level, in particular for every level above Warn (Error,
Panic and Fatal among them); the four colours differ from one another. -/
theorem colorByLevel_table (level : Int) :
    colorByLevel slogLevelInfo = colorWhite ∧
    colorByLevel slogLevelDebug = colorBlue ∧
    colorByLevel slogLevelWarn = colorYellow ∧
    (level ≠ slogLevelInfo → level ≠ slogLevelDebug → level ≠ slogLevelWarn →
      colorByLevel level = colorRed) ∧
    (level > slogLevelWarn → colorByLevel level = colorRed) ∧
    colorByLevel slogLevelError = colorRed ∧
    colorByLevel lvlPanic = colorRed ∧
    colorByLevel lvlFatal = colorRed ∧
    [colorWhite, colorBlue, colorYellow, colorRed].Nodup := by
  have hother : level ≠ slogLevelInfo → level ≠ slogLevelDebug → level ≠ slogLevelWarn →
      colorByLevel level = colorRed := by
    intro h1 h2 h3
    simp only [colorByLevel, h1, h2, h3, if_false]
  refine ⟨by decide, by decide, by decide, hother, ?_, by decide, by decide, by decide,
    by decide⟩
  intro h
  simp only [slogLevelWarn, slogLevelInfo, slogLevelDebug] at h hother
  exact hother (by omega) (by omega) (by omega)

/-- Witness for C13: level 5, just above Warn, is red. -/
theorem colorByLevel_table_witness :
    colorByLevel 5 = colorRed ∧ colorByLevel 1 = colorRed :=
  ⟨(colorByLevel_table 5).2.2.2.2.1 (by decide),
   (colorByLevel_table 1).2.2.2.1 (by decide) (by decide) (by decide)⟩

/-! ## Handler scoping -/

/-- C14: `WithAttrs` and `WithGroup` return the handler they are called on,
so the handler they return writes, for every record and call stack, what the
original one writes, and enables the same levels: the attributes and the
group name are dropped. -/
theorem WithAttrs_WithGroup_return_receiver (c : CustomHandler) (A : List Attr) (g : String)
    (w : World) (env : Env) (record : Record) (level : Int) :
    c.WithAttrs A = c ∧
    c.WithGroup g = c ∧
    (c.WithAttrs A).Handle w env record = c.Handle w env record ∧
    (c.WithGroup g).Handle w env record = c.Handle w env record ∧
    ((c.WithAttrs A).Handle w env record).1.stderr =
      w.stderr ++ [Fprintf (handleMsg w.filePathMode env.stack record)] ∧
    ((c.WithGroup g).Handle w env record).1.stderr =
      w.stderr ++ [Fprintf (handleMsg w.filePathMode env.stack record)] ∧
    (c.WithAttrs A).Enabled w level = c.Enabled w level ∧
    (c.WithGroup g).Enabled w level = c.Enabled w level :=
  ⟨rfl, rfl, rfl, rfl, rfl, rfl, rfl, rfl⟩

/-! ## Global state -/

/-- An enabled level gets exactly one line from the dispatch, and nothing
else of the package state changes. -/
theorem loggerLog_enabled (w : World) (env : Env) (level : Int) (msg : String)
    (args : List GoValue) (h : w.logLevel ≤ level) :
    loggerLog w env level msg args =
      { w with stderr := w.stderr ++
          [Fprintf (handleMsg w.filePathMode env.stack (newRecord env level msg args))] } := by
  simp [loggerLog, Handle, Enabled, h]

/-- One iteration of the loop at a depth whose frame is non-internal: that
frame is the result. -/
theorem callerLoop_external (stack : List Frame) (i n : Nat) (fr : Frame)
    (hget : stack.get? i = some fr) (hext : externalAt stack i = true) :
    callerLoop stack i (n + 1) = (fr.file, fr.line) := by
  unfold externalAt at hext
  rw [callerLoop]
  cases hfn : fr.function with
  | none =>
    simp only [hget, hfn] at hext
    exact absurd hext (by simp)
  | some name =>
    simp only [hget, hfn] at hext ⊢
    rw [if_pos hext]

/-- One iteration of the loop at a depth without a non-internal frame: the
loop goes on at the next depth. -/
theorem callerLoop_skip (stack : List Frame) (i n : Nat) (hext : externalAt stack i = false) :
    callerLoop stack i (n + 1) = callerLoop stack (i + 1) n := by
  unfold externalAt at hext
  rw [callerLoop]
  cases hget : stack.get? i with
  | none => rfl
  | some fr =>
    cases hfn : fr.function with
    | none => simp only [hfn]
    | some name =>
      simp only [hget, hfn] at hext ⊢
      rw [if_neg (by simpa using hext)]

/-- The loop from depth `i` with `n` iterations returns the first
non-internal frame among the depths `i`, ..., `i + n - 1`, and `unknown` with
line 0 when there is none. -/
theorem callerLoop_first_external (stack : List Frame) (n i : Nat) :
    (∀ k fr, i ≤ k → k < i + n → stack.get? k = some fr → externalAt stack k = true →
      (∀ j, i ≤ j → j < k → externalAt stack j = false) →
      callerLoop stack i n = (fr.file, fr.line)) ∧
    ((∀ k, i ≤ k → k < i + n → externalAt stack k = false) →
      callerLoop stack i n = ("unknown", 0)) := by
  induction n generalizing i with
  | zero =>
    refine ⟨fun k fr h1 h2 => absurd h2 (by omega), fun _ => rfl⟩
  | succ n ih =>
    constructor
    · intro k fr h1 h2 hget hext hbefore
      by_cases hk : k = i
      · subst hk
        exact callerLoop_external stack k n fr hget hext
      · rw [callerLoop_skip stack i n (hbefore i (Nat.le_refl _) (by omega))]
        exact (ih (i + 1)).1 k fr (by omega) (by omega) hget hext
          (fun j hj1 hj2 => hbefore j (by omega) hj2)
    · intro hnone
      rw [callerLoop_skip stack i n (hnone i (Nat.le_refl _) (by omega))]
      exact (ih (i + 1)).2 (fun k hk1 hk2 => hnone k (by omega) (by omega))

/-- The loop reads the stack only at the depths it visits. -/
theorem callerLoop_congr (s1 s2 : List Frame) (n i : Nat)
    (h : ∀ k, i ≤ k → k < i + n → s1.get? k = s2.get? k) :
    callerLoop s1 i n = callerLoop s2 i n := by
  induction n generalizing i with
  | zero => rfl
  | succ n ih =>
    rw [callerLoop, callerLoop, h i (Nat.le_refl _) (by omega),
      ih (i + 1) (fun k hk1 hk2 => h k (by omega) (by omega))]

/-- C16: the resolver returns the file and line of the frame at the least
depth from 2 to 14 whose function name is classified as non-internal, and
`unknown` with line 0 when no depth from 2 to 14 has such a frame (the frames
are all internal, or the stack is too short).  The two frames at depth 0
and 1 and the frames from depth 15 on have no part in the result. -/
theorem resolveCaller_first_external (stack : List Frame) :
    (∀ i fr, 2 ≤ i → i < 15 → stack.get? i = some fr → externalAt stack i = true →
      (∀ j, 2 ≤ j → j < i → externalAt stack j = false) →
      resolveCaller stack = (fr.file, fr.line)) ∧
    ((∀ i, 2 ≤ i → i < 15 → externalAt stack i = false) →
      resolveCaller stack = ("unknown", 0)) ∧
    (resolveCaller stack = ("unknown", 0) ∨
      ∃ i fr, 2 ≤ i ∧ i < 15 ∧ stack.get? i = some fr ∧ externalAt stack i = true ∧
        (∀ j, 2 ≤ j → j < i → externalAt stack j = false) ∧
        resolveCaller stack = (fr.file, fr.line)) ∧
    (∀ (a b a2 b2 : Frame) (rest : List Frame),
      resolveCaller (a :: b :: rest) = resolveCaller (a2 :: b2 :: rest)) ∧
    resolveCaller (stack.take 15) = resolveCaller stack := by
  have hspec := callerLoop_first_external stack 13 2
  refine ⟨fun i fr h1 h2 => hspec.1 i fr h1 (by omega), fun h => hspec.2 (fun k h1 h2 =>
    h k h1 (by omega)), ?_, ?_, ?_⟩
  · by_cases hex : ∃ i, 2 ≤ i ∧ i < 15 ∧ externalAt stack i = true
    · -- take the least such depth
      classical
      let i := Nat.find hex
      have hi : 2 ≤ i ∧ i < 15 ∧ externalAt stack i = true := Nat.find_spec hex
      have hmin : ∀ j, 2 ≤ j → j < i → externalAt stack j = false := by
        intro j hj1 hj2
        have := Nat.find_min hex hj2
        by_contra hne
        exact this ⟨hj1, by omega, by simpa using hne⟩
      have hget : ∃ fr, stack.get? i = some fr := by
        cases hg : stack.get? i with
        | none =>
          have := hi.2.2
          unfold externalAt at this
          rw [hg] at this
          exact absurd this (by simp)
        | some fr => exact ⟨fr, rfl⟩
      obtain ⟨fr, hfr⟩ := hget
      exact Or.inr ⟨i, fr, hi.1, hi.2.1, hfr, hi.2.2, hmin,
        hspec.1 i fr hi.1 (by omega) hfr hi.2.2 hmin⟩
    · refine Or.inl (hspec.2 (fun k h1 h2 => ?_))
      by_contra hne
      exact hex ⟨k, h1, by omega, by simpa using hne⟩
  · intro a b a2 b2 rest
    unfold resolveCaller
    apply callerLoop_congr
    intro k hk1 hk2
    obtain ⟨m, rfl⟩ : ∃ m, k = m + 2 := ⟨k - 2, by omega⟩
    rfl
  · unfold resolveCaller
    apply callerLoop_congr
    intro k hk1 hk2
    rw [List.get?_eq_getElem?, List.get?_eq_getElem?, List.getElem?_take]
    rw [if_pos (by omega)]

/-- Witness for C16: from `sampleStack` the resolver returns the frame of
`main.main` at depth 4; from the empty stack it returns `unknown`. -/
theorem resolveCaller_first_external_witness :
    resolveCaller sampleStack = (callerFrame.file, callerFrame.line) ∧
    resolveCaller [] = ("unknown", 0) :=
  ⟨(resolveCaller_first_external sampleStack).1 4 callerFrame (by decide) (by decide)
      rfl (by decide) (fun j h1 h2 => by interval_cases j <;> decide),
   (resolveCaller_first_external []).2.1 (fun i _ _ => by simp [externalAt])⟩

/-- A name that starts with text containing `sub` contains `sub`. -/
theorem strContains_append (pre rest sub : String) (h : strContains pre sub = true) :
    strContains (pre ++ rest) sub = true := by
  unfold strContains at h ⊢
  have h1 : sub.data <:+: pre.data := by simpa using h
  have h2 : sub.data <:+: (pre ++ rest).data := by
    rw [String.data_append]
    exact h1.trans (List.prefix_append _ _).isInfix
  simpa using h2

/-- The hops of `log/slog` are internal, whatever the method. -/
theorem slog_method_internal (tier : String) :
    isInternalPackage ("log/slog.(*Logger)." ++ tier) = true := by
  unfold isInternalPackage
  rw [strContains_append _ _ "log/slog" (by decide)]
  rfl

/-- The functions of the package are internal, whatever their name. -/
theorem logx_function_internal (tier : String) :
    isInternalPackage ("github.com/Abdrashitoff-Vadim/logx." ++ tier) = true := by
  unfold isInternalPackage
  rw [strContains_append _ _ "logx." (by decide)]
  simp

/-- The methods of `Logger` are internal, whatever their name. -/
theorem logx_method_internal (tier : String) :
    isInternalPackage ("github.com/Abdrashitoff-Vadim/logx.Logger." ++ tier) = true := by
  unfold isInternalPackage
  rw [strContains_append _ _ "logx." (by decide)]
  simp

/-- The resolver walks over any run of fewer than 13 internal hops that
follows the two frames at depth 0 and 1, and returns the frame after it when
that one is non-internal. -/
theorem resolveCaller_skips_internal_hops (a b F : Frame) (hops rest : List Frame)
    (name : String) (hlen : hops.length < 13)
    (hhops : ∀ fr ∈ hops, ∃ n, fr.function = some n ∧ isInternalPackage n = true)
    (hF : F.function = some name) (hname : isInternalPackage name = false) :
    resolveCaller (a :: b :: (hops ++ F :: rest)) = (F.file, F.line) := by
  have hgetF : (a :: b :: (hops ++ F :: rest)).get? (2 + hops.length) = some F := by
    rw [List.get?_eq_getElem?, Nat.add_comm]
    simp only [List.getElem?_cons_succ]
    rw [List.getElem?_append_right (Nat.le_refl _)]
    simp
  apply (callerLoop_first_external _ 13 2).1 (2 + hops.length) F (by omega) (by omega) hgetF
  · unfold externalAt
    simp only [hgetF, hF, hname]
    rfl
  · intro j hj1 hj2
    obtain ⟨m, rfl⟩ : ∃ m, j = m + 2 := ⟨j - 2, by omega⟩
    have hm : m < hops.length := by omega
    have hget : (a :: b :: (hops ++ F :: rest)).get? (m + 2) = some (hops.get ⟨m, hm⟩) := by
      rw [List.get?_eq_getElem?]
      simp [List.getElem?_append_left hm, List.getElem?_eq_getElem hm]
    obtain ⟨n, hn1, hn2⟩ := hhops _ (List.get_mem hops m hm)
    unfold externalAt
    simp only [hget, hn1, hn2]
    rfl

/-- C17: for a caller `F` whose function name is classified as non-internal,
the resolver returns the file and line of `F` both on the direct path
(`Handle`, `(*Logger).log`, the `slog` method, the `logx` function, `F`) and on
the path through `Logger` (`Handle`, `(*Logger).log`, `(*Logger).Log`, the
`Logger` method, the `logx` function, `F`); every frame above `F` on either
path is classified as internal. -/
theorem resolveCaller_same_caller_on_both_paths (tier : String) (line methodLine funcLine : Int)
    (F : Frame) (name : String) (rest : List Frame) (hF : F.function = some name)
    (hname : isInternalPackage name = false) :
    resolveCaller (directStack tier line (F :: rest)) = (F.file, F.line) ∧
    resolveCaller (wrapperStack tier methodLine funcLine (F :: rest)) = (F.file, F.line) ∧
    resolveCaller (directStack tier line (F :: rest)) =
      resolveCaller (wrapperStack tier methodLine funcLine (F :: rest)) ∧
    (∀ fr ∈ directStack tier line [],
      ∃ n, fr.function = some n ∧ isInternalPackage n = true) ∧
    (∀ fr ∈ wrapperStack tier methodLine funcLine [],
      ∃ n, fr.function = some n ∧ isInternalPackage n = true) ∧
    (∀ (a b : Frame) (hops : List Frame), hops.length < 13 →
      (∀ fr ∈ hops, ∃ n, fr.function = some n ∧ isInternalPackage n = true) →
      resolveCaller (a :: b :: (hops ++ F :: rest)) = (F.file, F.line)) := by
  have hd : resolveCaller (directStack tier line (F :: rest)) = (F.file, F.line) := by
    simp [resolveCaller, directStack, callerLoop, slog_method_internal,
      logx_function_internal, hF, hname]
  have hw : resolveCaller (wrapperStack tier methodLine funcLine (F :: rest)) =
      (F.file, F.line) := by
    have hLog : isInternalPackage "log/slog.(*Logger).Log" = true := by decide
    simp [resolveCaller, wrapperStack, callerLoop, hLog, logx_method_internal,
      logx_function_internal, hF, hname]
  refine ⟨hd, hw, by rw [hd, hw], ?_, ?_, fun a b hops hlen hhops =>
    resolveCaller_skips_internal_hops a b F hops rest name hlen hhops hF hname⟩
  · intro fr hfr
    simp only [directStack, List.append_nil, List.mem_cons, List.mem_singleton,
      List.not_mem_nil, or_false] at hfr
    rcases hfr with rfl | rfl | rfl | rfl
    · exact ⟨_, rfl, by decide⟩
    · exact ⟨_, rfl, by decide⟩
    · exact ⟨_, rfl, slog_method_internal tier⟩
    · exact ⟨_, rfl, logx_function_internal tier⟩
  · intro fr hfr
    simp only [wrapperStack, List.append_nil, List.mem_cons, List.mem_singleton,
      List.not_mem_nil, or_false] at hfr
    rcases hfr with rfl | rfl | rfl | rfl | rfl
    · exact ⟨_, rfl, by decide⟩
    · exact ⟨_, rfl, by decide⟩
    · exact ⟨_, rfl, by decide⟩
    · exact ⟨_, rfl, logx_method_internal tier⟩
    · exact ⟨_, rfl, logx_function_internal tier⟩

/-- Witness for C17: `main.main` calling `logx.Info` and `logx.Panic`. -/
theorem resolveCaller_same_caller_on_both_paths_witness :
    resolveCaller (directStack "Info" 188 (callerFrame :: [])) =
      (callerFrame.file, callerFrame.line) ∧
    resolveCaller (wrapperStack "Panic" 154 203 (callerFrame :: [])) =
      (callerFrame.file, callerFrame.line) :=
  ⟨(resolveCaller_same_caller_on_both_paths "Info" 188 154 203 callerFrame "main.main" []
      (by decide) (by decide)).1,
   (resolveCaller_same_caller_on_both_paths "Panic" 188 154 203 callerFrame "main.main" []
      (by decide) (by decide)).2.1⟩

/-! ## Arguments of the convenience functions -/

/-- The text of a slice is `[]` exactly when the slice is empty or holds one
value whose text is empty. -/
theorem sprint_slice_eq_brackets (args : List GoValue) :
    sprint (GoValue.slice args) = "[]" ↔ args = [] ∨ ∃ x, args = [x] ∧ sprint x = "" := by
  have hdata : ∀ s : String, "[" ++ s ++ "]" = "[]" ↔ s = "" := by
    intro s
    constructor
    · intro h
      have hd := congrArg String.data h
      simp only [String.data_append] at hd
      have h1 : s.data ++ [']'] = [']'] := by simpa using hd
      have h2 : s.data = [] := by
        have := congrArg List.length h1
        simp at this
        exact List.length_eq_zero.mp this
      exact String.ext h2
    · intro h
      rw [h]
      rfl
  rw [sprint, hdata]
  cases args with
  | nil => simp [sprintAll, joinSpace]
  | cons x rest =>
    cases rest with
    | nil => simp [sprintAll, joinSpace]
    | cons y rest2 =>
      simp only [sprintAll, joinSpace, false_or, reduceCtorEq]
      constructor
      · intro h
        have hd := congrArg String.data h
        simp [String.data_append] at hd
      · rintro ⟨z, hz, _⟩
        simp at hz

/-- C18, as stated, fails in its last part: `Info("m", "")` has one argument,
but the text of the slice holding it is `[]`, so the attribute segment is
empty though `args` is not. -/
theorem Info_empty_string_arg_renders_nothing :
    handleAttrs (newRecord sampleEnv slogLevelInfo "m" [GoValue.slice [GoValue.str ""]]) = "" ∧
    [GoValue.str ""] ≠ ([] : List GoValue) ∧
    (Info World.initial sampleEnv "m" [GoValue.str ""]).1.stderr =
      ["\x1b[1m\x1b[97m01:01:01 [c.ext:7][INFO]:\x1b[97m m\x1b[0m\n"] := by
  refine ⟨by decide, by simp, by decide⟩

/-- C18, amended: `Debug`, `Info`, `Warn` and `Error` hand their arguments to the
dispatch as one value, so the record has the one attribute `!BADKEY` whose
value is the slice; the attribute segment is a space and the bracketed text
of the slice (` [a 1 b 2]` for the arguments `a`, 1, `b`, 2, not ` a=1 b=2`),
unless that text is `[]`, when the segment is empty: that is when `args` is
empty or is one value whose text is empty. -/
theorem convenience_args_forwarded_as_one_value (w : World) (env : Env) (level : Int)
    (msg : String) (args : List GoValue) :
    (Debug w env msg args).1 =
      loggerLog (getLogger w).1 env slogLevelDebug msg [GoValue.slice args] ∧
    (Info w env msg args).1 =
      loggerLog (getLogger w).1 env slogLevelInfo msg [GoValue.slice args] ∧
    (Warn w env msg args).1 =
      loggerLog (getLogger w).1 env slogLevelWarn msg [GoValue.slice args] ∧
    (Error w env msg args).1 =
      loggerLog (getLogger w).1 env slogLevelError msg [GoValue.slice args] ∧
    (w.logLevel ≤ level →
      (loggerLog (getLogger w).1 env level msg [GoValue.slice args]).stderr = w.stderr ++
        [Fprintf (handleMsg w.filePathMode env.stack
          (newRecord env level msg [GoValue.slice args]))]) ∧
    (newRecord env level msg [GoValue.slice args]).attrs =
      [{ Key := badKey, Value := GoValue.slice args }] ∧
    (sprint (GoValue.slice args) ≠ "[]" →
      handleAttrs (newRecord env level msg [GoValue.slice args]) =
        " " ++ sprint (GoValue.slice args)) ∧
    (handleAttrs (newRecord env level msg [GoValue.slice args]) = "" ↔
      args = [] ∨ ∃ x, args = [x] ∧ sprint x = "") ∧
    handleAttrs (newRecord env level msg
      [GoValue.slice [GoValue.str "a", GoValue.int 1, GoValue.str "b", GoValue.int 2]]) =
      " [a 1 b 2]" := by
  obtain ⟨hl, hs, hm⟩ := getLogger_frame w
  have hfold : handleAttrs (newRecord env level msg [GoValue.slice args]) =
      if " " ++ sprint (GoValue.slice args) = " []" then ""
      else " " ++ sprint (GoValue.slice args) := by
    simp [handleAttrs, newRecord, argsToAttrs, attrText, badKey]
  have hsp : " " ++ sprint (GoValue.slice args) = " []" ↔ sprint (GoValue.slice args) = "[]" := by
    constructor
    · intro h
      have hd := congrArg String.data h
      rw [String.data_append] at hd
      exact String.ext (List.cons.inj hd).2
    · intro h
      rw [h]
      rfl
  refine ⟨rfl, rfl, rfl, rfl, ?_, rfl, ?_, ?_, rfl⟩
  · intro hle
    have hle2 : (getLogger w).1.logLevel ≤ level := by rw [hl]; exact hle
    rw [loggerLog_enabled _ _ _ _ _ hle2, hs, hm]
  · intro hne
    rw [hfold, if_neg (fun h => hne (hsp.mp h))]
  · rw [hfold, ← sprint_slice_eq_brackets, ← hsp]
    constructor
    · intro h
      by_contra hne
      rw [if_neg hne] at h
      have hd := congrArg String.data h
      rw [String.data_append] at hd
      simp at hd
    · intro h
      rw [if_pos h]

/-- Witness for C18: `Warn("m", "a", 1, "b", 2)` at program start. -/
theorem convenience_args_forwarded_as_one_value_witness :
    (loggerLog (getLogger World.initial).1 sampleEnv slogLevelWarn "m"
        [GoValue.slice [GoValue.str "a", GoValue.int 1, GoValue.str "b", GoValue.int 2]]).stderr =
      World.initial.stderr ++
        [Fprintf (handleMsg World.initial.filePathMode sampleEnv.stack
          (newRecord sampleEnv slogLevelWarn "m"
            [GoValue.slice [GoValue.str "a", GoValue.int 1, GoValue.str "b", GoValue.int 2]]))] ∧
    handleAttrs (newRecord sampleEnv slogLevelWarn "m"
        [GoValue.slice [GoValue.str "a", GoValue.int 1, GoValue.str "b", GoValue.int 2]]) =
      " " ++ sprint (GoValue.slice [GoValue.str "a", GoValue.int 1, GoValue.str "b",
        GoValue.int 2]) :=
  ⟨(convenience_args_forwarded_as_one_value World.initial sampleEnv slogLevelWarn "m"
      [GoValue.str "a", GoValue.int 1, GoValue.str "b", GoValue.int 2]).2.2.2.2.1 (by decide),
   (convenience_args_forwarded_as_one_value World.initial sampleEnv slogLevelWarn "m"
      [GoValue.str "a", GoValue.int 1, GoValue.str "b", GoValue.int 2]).2.2.2.2.2.2.1
      (by decide)⟩

/-! ## The value of the panic -/

end Logx
